import Mathlib

/-!
Verification of the NinjaRipper-2-to-OBJ converter (`src/NinjaRipper2-OBJ.py`).

The Python source is shallowly embedded here.  A byte buffer is a
`List Nat` whose elements are the byte values (0..255 on real inputs).
`struct.unpack('<I', ...)` on an exact 4-byte slice becomes `readU32`;
the variant `readU32?` returns `none` exactly when the Python slice is
shorter than 4 bytes, in which case `struct.unpack` raises
`struct.error`.  32-bit floats (`struct.unpack('<fff', ...)`) are kept
as their raw little-endian 32-bit words: IEEE-754 decoding is a fixed
bijection on bit patterns, and every claim below concerns which bytes
are grouped into which vertex, never float arithmetic.

The chunk-scanning `while` loop of `read_nr_file` can fail to make
progress (when a declared chunk size is 0), so it is embedded with
explicit fuel: `parseChunks data fuel pos acc = none` means the loop did
not finish within `fuel` iterations.  With fuel `data.length + 1` the
loop either terminates (every iteration advances `pos` by at least 1) or
has reached a position it will re-read forever, so `none` at that fuel
coincides with true divergence.
-/

/-- Little-endian 32-bit read at `off`, as Python's
`struct.unpack('<I', data[off:off+4])[0]` computes it when the slice has
4 bytes. Out-of-range positions read as 0 (never reached at in-bounds call sites). -/
def readU32 (data : List Nat) (off : Nat) : Nat :=
  data.getD off 0 + data.getD (off + 1) 0 * 256 +
    data.getD (off + 2) 0 * 65536 + data.getD (off + 3) 0 * 16777216

/-- `struct.unpack('<I', data[off:off+4])` including the `struct.error`
raised when the Python slice holds fewer than 4 bytes: `none` models that error. -/
def readU32? (data : List Nat) (off : Nat) : Option Nat :=
  if off + 4 ≤ data.length then some (readU32 data off) else none

/-- Python slice `data[a:b]` (clamps both ends, empty when `a ≥ b`). -/
def pySlice (data : List Nat) (a b : Nat) : List Nat :=
  (data.take b).drop a

/-- One parsed chunk, the tuple `(tag, idx, pos, raw_size, chunk_data)`
appended to `self.chunks` at line 44 of the source. -/
structure Chunk where
  tag : Nat
  idx : Nat
  pos : Nat
  raw_size : Nat
  chunk_data : List Nat
deriving DecidableEq, Repr

instance : Inhabited Chunk := ⟨⟨0, 0, 0, 0, []⟩⟩

/-- The `while pos < len(data)` chunk loop of `read_nr_file`
(lines 31–47), with explicit fuel; `none` = the loop has not terminated
after `fuel` iterations.  Each iteration reads the 12-byte header
`(raw_size, tag, idx)`, slices the payload `data[pos+12:pos+raw_size]`
(empty unless `raw_size > 12`), appends the chunk, and sets
`pos := pos + raw_size`. -/
def parseChunks (data : List Nat) : Nat → Nat → List Chunk → Option (List Chunk)
  | 0, _, _ => none
  | fuel + 1, pos, acc =>
    if pos < data.length then
      if pos + 12 > data.length then some acc
      else
        let raw_size := readU32 data pos
        let tag := readU32 data (pos + 4)
        let idx := readU32 data (pos + 8)
        let chunk_data := if raw_size > 12 then pySlice data (pos + 12) (pos + raw_size) else []
        parseChunks data fuel (pos + raw_size) (acc ++ [⟨tag, idx, pos, raw_size, chunk_data⟩])
    else some acc

/-- Outcome of `read_nr_file` on a byte buffer:
`structError` = a `struct.error` from unpacking a short slice (buffer
under 4 bytes, or under 8 bytes once the magic matched); `badMagic` =
the `ValueError` of line 20; `diverge` = the chunk loop never
terminates; `ok` = the final `self.chunks`. -/
inductive ParseOutcome where
  | structError
  | badMagic
  | diverge
  | ok (chunks : List Chunk)
deriving DecidableEq, Repr

/-- `NR2ObjConverter.read_nr_file` (lines 12–47) as a function of the
file bytes (the version field is read — possibly failing — but only
feeds a warning print, so its value is dropped here). -/
def read_nr_file (data : List Nat) : ParseOutcome :=
  match readU32? data 0 with
  | none => .structError
  | some magic =>
    if magic = 0x5049524E then
      match readU32? data 4 with
      | none => .structError
      | some _nr_version =>
        match parseChunks data (data.length + 1) 16 [] with
        | none => .diverge
        | some cs => .ok cs
    else .badMagic

/-- `NR2ObjConverter.find_chunks` (lines 53–55). -/
def find_chunks (chunks : List Chunk) (tag : Nat) : List Chunk :=
  chunks.filter (fun c => c.tag == tag)

/-- A vertex position as the three raw little-endian 32-bit words that
`struct.unpack('<fff', vert_data[pos:pos+12])` decodes (line 74). -/
def vertexAt (data : List Nat) (pos : Nat) : Nat × Nat × Nat :=
  (readU32 data pos, readU32 data (pos + 4), readU32 data (pos + 8))

/-- The `for i in range(vertex_count)` loop of `parse_vertex_data`
(lines 69–76): recursion on the remaining iteration count, cursor `pos`
advanced by `vertex_size` (the stride) each round, `break` when
`pos + 12 > len(vert_data)`. -/
def vertLoop (p : List Nat) (stride : Nat) : Nat → Nat → List (Nat × Nat × Nat)
  | 0, _ => []
  | n + 1, pos =>
    if pos + 12 > p.length then []
    else vertexAt p pos :: vertLoop p stride n (pos + stride)

/-- `NR2ObjConverter.parse_vertex_data` (lines 57–78). -/
def parse_vertex_data (vert_data : List Nat) : List (Nat × Nat × Nat) :=
  if vert_data.length < 8 then []
  else
    let vertex_count := readU32 vert_data 0
    let vertex_size := readU32 vert_data 4
    vertLoop vert_data vertex_size vertex_count 8

/-- The `for i in range(index_count)` loop of `parse_index_data`
(lines 91–98): 4-byte little-endian reads, cursor advanced by 4,
`break` when `pos + 4 > len(indx_data)`. -/
def indxLoop (p : List Nat) : Nat → Nat → List Nat
  | 0, _ => []
  | n + 1, pos =>
    if pos + 4 > p.length then []
    else readU32 p pos :: indxLoop p n (pos + 4)

/-- `NR2ObjConverter.parse_index_data` (lines 80–100).  The topology
field at payload offset 4 is never unpacked by the source. -/
def parse_index_data (indx_data : List Nat) : List Nat :=
  if indx_data.length < 8 then []
  else
    let index_count := readU32 indx_data 0
    indxLoop indx_data index_count 8

/-- The face-grouping loop of `convert_to_obj` (lines 147–150):
`for i in range(0, len(indices), 3)` writing a face only when
`i + 2 < len(indices)`; equivalently, consecutive triples with any
trailing group of fewer than 3 indices dropped.  Faces are 0-based
here; the `+1` of the OBJ serialization is applied where the face line
is written (see `convert_core`). -/
def facesOf : List Nat → List (Nat × Nat × Nat)
  | a :: b :: c :: rest => (a, b, c) :: facesOf rest
  | _ => []

/-- The vertex-chunk selection of lines 123–126:
`vert_chunks[1 if use_world_space and len(vert_chunks) > 1 else 0]`;
`none` would be Python's `IndexError` (unreachable at the call site,
which is guarded by the non-emptiness check of line 120). -/
def selectVertexChunk (vert_chunks : List Chunk) (use_world_space : Bool) : Option Chunk :=
  vert_chunks[if use_world_space = true ∧ 1 < vert_chunks.length then 1 else 0]?

/-- The OBJ artifact written by `convert_to_obj` (lines 136–150), up to
the fixed text rendering: the space-selector comment, the vertex lines
(raw float words, see `vertexAt`) and the face lines, whose indices are
written 1-based (`indices[i]+1`). -/
structure ObjContent where
  use_world_space : Bool
  vertices : List (Nat × Nat × Nat)
  faces : List (Nat × Nat × Nat)
deriving DecidableEq, Repr

/-- Errors surfaced by `convert_to_obj`'s `except Exception` handler
(lines 155–159), which reports the failure and returns `False`:
`structError` and `badMagic` come from `read_nr_file`, `noGeometry` is
the `ValueError` of line 121.  All three are raised before the output
file is opened at line 136, so a reported error means no file content
was produced. -/
inductive NrError where
  | structError
  | badMagic
  | noGeometry
deriving DecidableEq, Repr

/-- Result of one conversion: a reported failure (caught exception,
`return False`, no OBJ content) or the written OBJ content
(`return True`). -/
inductive ConvResult where
  | err (e : NrError)
  | ok (content : ObjContent)
deriving DecidableEq, Repr

/-- The geometry part of `convert_to_obj` (lines 114–150), a pure
function of the parsed chunk list and the space selector. -/
def convert_core (chunks : List Chunk) (use_world_space : Bool) : ConvResult :=
  let vert_chunks := find_chunks chunks 0x54524556
  let indx_chunks := find_chunks chunks 0x58444E49
  if vert_chunks = [] ∨ indx_chunks = [] then .err .noGeometry
  else
    let vert_chunk := (selectVertexChunk vert_chunks use_world_space).getD default
    let indx_chunk := indx_chunks.getD 0 default
    let vertices := parse_vertex_data vert_chunk.chunk_data
    let indices := parse_index_data indx_chunk.chunk_data
    .ok { use_world_space := use_world_space, vertices := vertices,
          faces := (facesOf indices).map (fun f => (f.1 + 1, f.2.1 + 1, f.2.2 + 1)) }

/-- Reference definition for claim C3, following the spec's words: empty
for payloads under 8 bytes; otherwise `count` from bytes 0..4 and
`stride` from bytes 4..8, then the vertices for `i = 0, 1, ...` taken
while `i < count` and `8 + i*stride + 12 ≤ payloadLength`, vertex `i`
being the three 32-bit words at payload offset `8 + i*stride`. -/
def decodeVerticesSpec (p : List Nat) : List (Nat × Nat × Nat) :=
  if p.length < 8 then []
  else
    let count := readU32 p 0
    let stride := readU32 p 4
    ((List.range count).takeWhile (fun i => decide (8 + i * stride + 12 ≤ p.length))).map
      (fun i => vertexAt p (8 + i * stride))

/-- Reference definition for claim C8, following the spec's words:
`count` is the 32-bit word at offset 0, the topology field at offset 4
is not consulted, and the result is the 32-bit words at offsets
8, 12, 16, …, taken while fewer than `count` have been read and the
next 4-byte read fits within the payload. -/
def decodeIndicesSpec (p : List Nat) : List Nat :=
  ((List.range (readU32 p 0)).takeWhile (fun i => decide (8 + 4 * i + 4 ≤ p.length))).map
    (fun i => readU32 p (8 + 4 * i))

/-- Reference definition for claim C5, following the spec's words: face
`j` is the triple of indices at positions `3j, 3j+1, 3j+2`, for the
`⌊length/3⌋` complete triples; a trailing group of fewer than 3 is
dropped. -/
def facesSpec (l : List Nat) : List (Nat × Nat × Nat) :=
  (List.range (l.length / 3)).map
    (fun j => (l.getD (3 * j) 0, l.getD (3 * j + 1) 0, l.getD (3 * j + 2) 0))

/-- The converter object's mutable fields (`__init__`, lines 8–10). -/
structure ConverterState where
  chunks : List Chunk
  nr_version : Nat
deriving DecidableEq, Repr

/-- `NR2ObjConverter.convert_to_obj` (lines 102–161) acting on the
converter state: `self.chunks = []` first (line 105), then
`read_nr_file` — which appends the parsed chunks to `self.chunks` and
assigns `self.nr_version` (the word at offset 4) only once the magic
check passed and the version slice unpacked, so on `structError` and
`badMagic` outcomes the old `nr_version` survives in `st0` — then the
geometry conversion.  The result is `none` when the chunk loop diverges
(the call never returns), otherwise the final state paired with the
reported outcome. -/
def convert_to_obj_st (st : ConverterState) (data : List Nat) (use_world_space : Bool) :
    Option (ConverterState × ConvResult) :=
  let st0 : ConverterState := { st with chunks := [] }
  match read_nr_file data with
  | .structError => some (st0, .err .structError)
  | .badMagic => some (st0, .err .badMagic)
  | .diverge => none
  | .ok cs =>
    let st1 : ConverterState := { chunks := st0.chunks ++ cs, nr_version := readU32 data 4 }
    some (st1, convert_core st1.chunks use_world_space)

/-! ## Loop characterizations -/

/-- The vertex loop enumerates exactly the iteration indices whose
12-byte read fits, reading at `pos + i * stride`. -/
theorem vertLoop_eq_takeWhile (p : List Nat) (stride : Nat) :
    ∀ (n pos : Nat),
      vertLoop p stride n pos
        = ((List.range n).takeWhile (fun i => decide (pos + i * stride + 12 ≤ p.length))).map
            (fun i => vertexAt p (pos + i * stride))
  | 0, _ => by simp [vertLoop]
  | n + 1, pos => by
    have ih := vertLoop_eq_takeWhile p stride n (pos + stride)
    have harg : ∀ i : Nat, pos + Nat.succ i * stride = pos + stride + i * stride := by
      intro i
      rw [Nat.succ_mul]
      omega
    by_cases h : pos + 12 > p.length
    · have h0 : ¬ (pos + 0 * stride + 12 ≤ p.length) := by omega
      rw [List.range_succ_eq_map]
      simp only [List.takeWhile_cons, decide_eq_true_eq]
      rw [if_neg h0, vertLoop, if_pos h]
      simp
    · have h0 : pos + 0 * stride + 12 ≤ p.length := by omega
      have hq : ((fun i => decide (pos + i * stride + 12 ≤ p.length)) ∘ Nat.succ)
          = (fun i => decide (pos + stride + i * stride + 12 ≤ p.length)) := by
        funext i
        simp only [Function.comp_apply]
        rw [harg i]
      have hg : ((fun i => vertexAt p (pos + i * stride)) ∘ Nat.succ)
          = (fun i => vertexAt p (pos + stride + i * stride)) := by
        funext i
        simp only [Function.comp_apply]
        rw [harg i]
      rw [List.range_succ_eq_map]
      simp only [List.takeWhile_cons, decide_eq_true_eq]
      rw [if_pos h0, vertLoop, if_neg h,
        List.takeWhile_map, List.map_cons, List.map_map, hq, hg, ← ih]
      norm_num

/-- The index loop enumerates exactly the iteration indices whose 4-byte
read fits, reading at `pos + 4 * i`. -/
theorem indxLoop_eq_takeWhile (p : List Nat) :
    ∀ (n pos : Nat),
      indxLoop p n pos
        = ((List.range n).takeWhile (fun i => decide (pos + 4 * i + 4 ≤ p.length))).map
            (fun i => readU32 p (pos + 4 * i))
  | 0, _ => by simp [indxLoop]
  | n + 1, pos => by
    have ih := indxLoop_eq_takeWhile p n (pos + 4)
    have harg : ∀ i : Nat, pos + 4 * Nat.succ i = pos + 4 + 4 * i := by
      intro i
      rw [Nat.mul_succ]
      omega
    by_cases h : pos + 4 > p.length
    · have h0 : ¬ (pos + 4 * 0 + 4 ≤ p.length) := by omega
      rw [List.range_succ_eq_map]
      simp only [List.takeWhile_cons, decide_eq_true_eq]
      rw [if_neg h0, indxLoop, if_pos h]
      simp
    · have h0 : pos + 4 * 0 + 4 ≤ p.length := by omega
      have hq : ((fun i => decide (pos + 4 * i + 4 ≤ p.length)) ∘ Nat.succ)
          = (fun i => decide (pos + 4 + 4 * i + 4 ≤ p.length)) := by
        funext i
        simp only [Function.comp_apply]
        rw [harg i]
      have hg : ((fun i => readU32 p (pos + 4 * i)) ∘ Nat.succ)
          = (fun i => readU32 p (pos + 4 + 4 * i)) := by
        funext i
        simp only [Function.comp_apply]
        rw [harg i]
      rw [List.range_succ_eq_map]
      simp only [List.takeWhile_cons, decide_eq_true_eq]
      rw [if_pos h0, indxLoop, if_neg h,
        List.takeWhile_map, List.map_cons, List.map_map, hq, hg, ← ih]
      norm_num

/-- `facesOf` agrees with the triple-grouping reference definition. -/
theorem facesOf_eq_facesSpec : ∀ (l : List Nat), facesOf l = facesSpec l
  | [] => by simp [facesOf, facesSpec]
  | [a] => by simp [facesOf, facesSpec]
  | [a, b] => by simp [facesOf, facesSpec]
  | a :: b :: c :: rest => by
    have ih := facesOf_eq_facesSpec rest
    have hlen : (a :: b :: c :: rest).length / 3 = rest.length / 3 + 1 := by
      simp only [List.length_cons]
      omega
    rw [facesOf, ih]
    unfold facesSpec
    rw [hlen, List.range_succ_eq_map, List.map_cons, List.map_map]
    rfl

/-! ## Claims -/

/-- Claim C3: `parse_vertex_data` equals the reference definition
`decodeVerticesSpec` — empty below 8 bytes, otherwise the prefix of
`count` vertices whose 12-byte reads at offsets `8 + i*stride` fit the
payload; in particular with `stride = 20` and `count = 2` the second
vertex is read at offset 28 (shown on an explicit 48-byte payload), and
truncation yields a partial prefix, never an error. -/
theorem parse_vertex_data_eq_spec :
    (∀ p : List Nat, parse_vertex_data p = decodeVerticesSpec p)
    ∧ parse_vertex_data
        ([2, 0, 0, 0, 20, 0, 0, 0] ++ (List.range 40).map (fun i => i + 100))
      = [vertexAt ([2, 0, 0, 0, 20, 0, 0, 0] ++ (List.range 40).map (fun i => i + 100)) 8,
         vertexAt ([2, 0, 0, 0, 20, 0, 0, 0] ++ (List.range 40).map (fun i => i + 100)) 28] := by
  constructor
  · intro p
    unfold parse_vertex_data decodeVerticesSpec
    by_cases h : p.length < 8
    · rw [if_pos h, if_pos h]
    · rw [if_neg h, if_neg h]
      exact vertLoop_eq_takeWhile p (readU32 p 4) (readU32 p 0) 8
  · decide

/-- Claim C5: the face list is built by grouping the decoded index
sequence into consecutive triples (`facesOf` equals the reference
grouping `facesSpec`), and the face count is `⌊length/3⌋`, so a
trailing group of fewer than 3 indices is dropped and a sequence of
length 7 yields exactly `7 / 3 = 2` faces. -/
theorem facesOf_groups_triples :
    (∀ l : List Nat, facesOf l = facesSpec l)
    ∧ (∀ l : List Nat, (facesOf l).length = l.length / 3)
    ∧ facesOf [10, 11, 12, 13, 14, 15, 16] = [(10, 11, 12), (13, 14, 15)] := by
  refine ⟨facesOf_eq_facesSpec, fun l => ?_, by decide⟩
  rw [facesOf_eq_facesSpec]
  unfold facesSpec
  rw [List.length_map, List.length_range]

/-- Claim C8: `parse_index_data` equals the reference definition
`decodeIndicesSpec` — `count` from offset 0, values read at offsets
8, 12, 16, … while they fit, truncation giving a partial prefix — and
the topology bytes at offsets 4..8 never influence the result: any two
payloads `c ++ t ++ rest` and `c ++ t' ++ rest` with 4-byte `c`, `t`,
`t'` decode identically. -/
theorem parse_index_data_eq_spec :
    (∀ p : List Nat, parse_index_data p = decodeIndicesSpec p)
    ∧ (∀ c t t' rest : List Nat, c.length = 4 → t.length = 4 → t'.length = 4 →
        parse_index_data (c ++ (t ++ rest)) = parse_index_data (c ++ (t' ++ rest))) := by
  have hspec : ∀ p : List Nat, parse_index_data p = decodeIndicesSpec p := by
    intro p
    unfold parse_index_data decodeIndicesSpec
    by_cases h : p.length < 8
    · rw [if_pos h]
      cases hc : readU32 p 0 with
      | zero => simp
      | succ m =>
        rw [List.range_succ_eq_map]
        simp only [List.takeWhile_cons, decide_eq_true_eq]
        rw [if_neg (by omega : ¬ (8 + 4 * 0 + 4 ≤ p.length))]
        simp
    · rw [if_neg h]
      exact indxLoop_eq_takeWhile p (readU32 p 0) 8
  refine ⟨hspec, fun c t t' rest hc ht ht' => ?_⟩
  rw [hspec, hspec]
  unfold decodeIndicesSpec
  have hlen : (c ++ (t ++ rest)).length = (c ++ (t' ++ rest)).length := by
    simp [hc, ht, ht']
  have hhead : ∀ j : Nat, j < 4 → (c ++ (t ++ rest)).getD j 0 = (c ++ (t' ++ rest)).getD j 0 := by
    intro j hj
    rw [List.getD_append _ _ _ _ (by omega), List.getD_append _ _ _ _ (by omega)]
  have hcount : readU32 (c ++ (t ++ rest)) 0 = readU32 (c ++ (t' ++ rest)) 0 := by
    unfold readU32
    rw [hhead 0 (by omega), hhead 1 (by omega), hhead 2 (by omega), hhead 3 (by omega)]
  have l1 : (c ++ t).length = 8 := by rw [List.length_append, hc, ht]
  have l2 : (c ++ t').length = 8 := by rw [List.length_append, hc, ht']
  have htail : ∀ j : Nat, (c ++ (t ++ rest)).getD (8 + j) 0 = (c ++ (t' ++ rest)).getD (8 + j) 0 := by
    intro j
    rw [← List.append_assoc, ← List.append_assoc]
    rw [List.getD_append_right _ _ _ _ (by rw [l1]; omega),
      List.getD_append_right _ _ _ _ (by rw [l2]; omega), l1, l2]
  have hread : ∀ i : Nat, readU32 (c ++ (t ++ rest)) (8 + 4 * i) = readU32 (c ++ (t' ++ rest)) (8 + 4 * i) := by
    intro i
    unfold readU32
    have e1 : 8 + 4 * i + 1 = 8 + (4 * i + 1) := by omega
    have e2 : 8 + 4 * i + 2 = 8 + (4 * i + 2) := by omega
    have e3 : 8 + 4 * i + 3 = 8 + (4 * i + 3) := by omega
    rw [e1, e2, e3, htail (4 * i), htail (4 * i + 1), htail (4 * i + 2), htail (4 * i + 3)]
  rw [hcount, hlen]
  congr 1
  funext i
  exact hread i

/-! ## Case analysis of `read_nr_file` -/

/-- Under 4 bytes, the magic unpack raises `struct.error`. -/
theorem read_nr_file_of_length_lt_4 (data : List Nat) (h : data.length < 4) :
    read_nr_file data = ParseOutcome.structError := by
  unfold read_nr_file readU32?
  rw [if_neg (by omega : ¬ (0 + 4 ≤ data.length))]

/-- With at least 4 bytes and a wrong magic word, `read_nr_file` raises
the `ValueError` of line 20, before the chunk loop is reached. -/
theorem read_nr_file_of_badMagic (data : List Nat) (h4 : 4 ≤ data.length)
    (hm : readU32 data 0 ≠ 0x5049524E) :
    read_nr_file data = ParseOutcome.badMagic := by
  unfold read_nr_file
  split
  · rename_i hnone
    unfold readU32? at hnone
    rw [if_pos (by omega : 0 + 4 ≤ data.length)] at hnone
    exact Option.noConfusion hnone
  · rename_i magic hmagic
    unfold readU32? at hmagic
    rw [if_pos (by omega : 0 + 4 ≤ data.length)] at hmagic
    injection hmagic with hmagic
    rw [if_neg (hmagic ▸ hm)]

/-- With 4–7 bytes and a valid magic, the version unpack raises
`struct.error`. -/
theorem read_nr_file_of_length_lt_8 (data : List Nat) (h4 : 4 ≤ data.length)
    (h8 : data.length < 8) (hm : readU32 data 0 = 0x5049524E) :
    read_nr_file data = ParseOutcome.structError := by
  unfold read_nr_file
  split
  · rfl
  · rename_i magic hmagic
    unfold readU32? at hmagic
    rw [if_pos (by omega : 0 + 4 ≤ data.length)] at hmagic
    injection hmagic with hmagic
    rw [if_pos (hmagic ▸ hm)]
    split
    · rfl
    · rename_i v hv
      unfold readU32? at hv
      rw [if_neg (by omega : ¬ (4 + 4 ≤ data.length))] at hv
      exact Option.noConfusion hv

/-- With at least 8 bytes, a valid magic and a terminating chunk loop,
`read_nr_file` returns the parsed chunk list. -/
theorem read_nr_file_of_ok (data : List Nat) (h8 : 8 ≤ data.length)
    (hm : readU32 data 0 = 0x5049524E) {cs : List Chunk}
    (hp : parseChunks data (data.length + 1) 16 [] = some cs) :
    read_nr_file data = ParseOutcome.ok cs := by
  unfold read_nr_file
  split
  · rename_i hnone
    unfold readU32? at hnone
    rw [if_pos (by omega : 0 + 4 ≤ data.length)] at hnone
    exact Option.noConfusion hnone
  · rename_i magic hmagic
    unfold readU32? at hmagic
    rw [if_pos (by omega : 0 + 4 ≤ data.length)] at hmagic
    injection hmagic with hmagic
    rw [if_pos (hmagic ▸ hm)]
    split
    · rename_i hv
      unfold readU32? at hv
      rw [if_pos (by omega : 4 + 4 ≤ data.length)] at hv
      exact Option.noConfusion hv
    · rename_i v hv
      split
      · rename_i hn
        rw [hp] at hn
        exact Option.noConfusion hn
      · rename_i cs2 hcs2
        rw [hp] at hcs2
        injection hcs2 with hcs2
        rw [hcs2]

/-- With at least 8 bytes, a valid magic and a non-terminating chunk
loop, the model records divergence. -/
theorem read_nr_file_of_diverge (data : List Nat) (h8 : 8 ≤ data.length)
    (hm : readU32 data 0 = 0x5049524E)
    (hp : parseChunks data (data.length + 1) 16 [] = none) :
    read_nr_file data = ParseOutcome.diverge := by
  unfold read_nr_file
  split
  · rename_i hnone
    unfold readU32? at hnone
    rw [if_pos (by omega : 0 + 4 ≤ data.length)] at hnone
    exact Option.noConfusion hnone
  · rename_i magic hmagic
    unfold readU32? at hmagic
    rw [if_pos (by omega : 0 + 4 ≤ data.length)] at hmagic
    injection hmagic with hmagic
    rw [if_pos (hmagic ▸ hm)]
    split
    · rename_i hv
      unfold readU32? at hv
      rw [if_pos (by omega : 4 + 4 ≤ data.length)] at hv
      exact Option.noConfusion hv
    · rename_i v hv
      split
      · rfl
      · rename_i cs2 hcs2
        rw [hp] at hcs2
        exact Option.noConfusion hcs2

/-- The vertex loop never yields more than its iteration bound. -/
theorem vertLoop_length_le (p : List Nat) (stride : Nat) :
    ∀ (n pos : Nat), (vertLoop p stride n pos).length ≤ n
  | 0, _ => by simp [vertLoop]
  | n + 1, pos => by
    rw [vertLoop]
    by_cases h : pos + 12 > p.length
    · rw [if_pos h]
      simp
    · rw [if_neg h]
      have := vertLoop_length_le p stride n (pos + stride)
      simp only [List.length_cons]
      omega

/-- With stride 0 and a fitting first read, every iteration re-reads the
bytes at offset 8. -/
theorem vertLoop_stride0 (p : List Nat) (h : 8 + 12 ≤ p.length) :
    ∀ n : Nat, vertLoop p 0 n 8 = List.replicate n (vertexAt p 8)
  | 0 => by simp [vertLoop]
  | n + 1 => by
    rw [vertLoop, if_neg (by omega : ¬ (8 + 12 > p.length))]
    simp only [Nat.add_zero]
    rw [vertLoop_stride0 p h n, List.replicate_succ]

/-- Claim C10: `parse_vertex_data` terminates for every stride — the
loop is bounded by `count`, never producing more than `count` vertices —
and with stride 0, `count ≥ 1` and at least 20 payload bytes it returns
exactly `count` copies of the vertex decoded from bytes 8..20
(overlapping reads). -/
theorem parse_vertex_data_small_stride :
    (∀ p : List Nat, (parse_vertex_data p).length ≤ readU32 p 0)
    ∧ (∀ p : List Nat, 20 ≤ p.length → readU32 p 4 = 0 → 1 ≤ readU32 p 0 →
        parse_vertex_data p = List.replicate (readU32 p 0) (vertexAt p 8)) := by
  constructor
  · intro p
    unfold parse_vertex_data
    by_cases h : p.length < 8
    · rw [if_pos h]
      simp
    · rw [if_neg h]
      exact vertLoop_length_le p (readU32 p 4) (readU32 p 0) 8
  · intro p hlen hstride _hcount
    unfold parse_vertex_data
    rw [if_neg (by omega : ¬ (p.length < 8)), hstride]
    exact vertLoop_stride0 p (by omega) (readU32 p 0)

/-- A 20-byte vertex payload declaring `count = 3`, `stride = 0`. -/
def strideZeroPayload : List Nat :=
  [3, 0, 0, 0, 0, 0, 0, 0, 1, 2, 3, 4, 5, 6, 7, 8, 9, 10, 11, 12]

/-- Witness for C10 at `strideZeroPayload`. -/
theorem parse_vertex_data_small_stride_witness :
    parse_vertex_data strideZeroPayload
      = List.replicate (readU32 strideZeroPayload 0) (vertexAt strideZeroPayload 8) :=
  parse_vertex_data_small_stride.2 strideZeroPayload (by decide) (by decide) (by decide)

/-- A 28-byte file with valid magic whose single chunk header at offset
16 declares size 0: the loop of lines 31–47 re-reads it forever. -/
def zeroChunkFile : List Nat :=
  [0x4E, 0x52, 0x49, 0x50, 1, 0, 0, 0, 0, 0, 0, 0, 0, 0, 0, 0,
   0, 0, 0, 0, 0x41, 0x42, 0x43, 0x44, 0, 0, 0, 0]

/-- On `zeroChunkFile` the cursor sticks at 16 whatever the fuel: the
loop appends the same chunk and never advances. -/
theorem parseChunks_zeroChunkFile_stuck :
    ∀ (fuel : Nat) (acc : List Chunk), parseChunks zeroChunkFile fuel 16 acc = none
  | 0, _ => rfl
  | fuel + 1, acc => by
    have ih := parseChunks_zeroChunkFile_stuck fuel (acc ++ [⟨0x44434241, 0, 16, 0, []⟩])
    rw [parseChunks, if_pos (by decide : 16 < zeroChunkFile.length),
        if_neg (by decide : ¬ (16 + 12 > zeroChunkFile.length))]
    exact ih

/-- Claim C1 (code bug): a chunk header with `declaredSize = 0` is not
rejected; on `zeroChunkFile` the chunk loop never terminates (for every
fuel the loop is still running), so `parse` neither terminates nor
raises a `FormatError` — contradicting the spec's corrupt-file
requirement. -/
theorem zero_declaredSize_loops_forever :
    read_nr_file zeroChunkFile = ParseOutcome.diverge
    ∧ ∀ (fuel : Nat) (acc : List Chunk), parseChunks zeroChunkFile fuel 16 acc = none := by
  refine ⟨?_, parseChunks_zeroChunkFile_stuck⟩
  exact read_nr_file_of_diverge zeroChunkFile (by decide) (by decide)
    (parseChunks_zeroChunkFile_stuck (zeroChunkFile.length + 1) [])

/-- A 12-byte file with valid magic and version but no room for the
16-byte header the spec demands. -/
def shortValidFile : List Nat := [0x4E, 0x52, 0x49, 0x50, 1, 0, 0, 0, 0, 0, 0, 0]

/-- Claim C2 counterexample: `shortValidFile` has fewer than 16 bytes,
yet `read_nr_file` succeeds with an empty chunk list instead of failing
with a `FormatError`. -/
theorem short_file_parses_ok :
    shortValidFile.length < 16 ∧ read_nr_file shortValidFile = ParseOutcome.ok [] := by
  constructor
  · decide
  · decide

/-- Claim C2 (amended): inputs under 8 bytes fail (with a `struct.error`
short-read where the magic or version unpack cannot complete, or the
bad-magic `ValueError`); with at least 4 bytes and a wrong magic word
the failure is the bad-magic `FormatError`, raised before any chunk is
scanned; but 8-to-15-byte inputs with a valid magic succeed with an
empty chunk list — the under-16-byte case of the original claim fails. -/
theorem read_nr_file_short_or_badMagic (data : List Nat) :
    (data.length < 8 →
      read_nr_file data = ParseOutcome.structError
        ∨ read_nr_file data = ParseOutcome.badMagic)
    ∧ (4 ≤ data.length → readU32 data 0 ≠ 0x5049524E →
        read_nr_file data = ParseOutcome.badMagic)
    ∧ (8 ≤ data.length → data.length < 16 → readU32 data 0 = 0x5049524E →
        read_nr_file data = ParseOutcome.ok []) := by
  refine ⟨?_, fun h4 hm => read_nr_file_of_badMagic data h4 hm, fun h8 h16 hm => ?_⟩
  · intro h8
    by_cases h4 : 4 ≤ data.length
    · by_cases hm : readU32 data 0 = 0x5049524E
      · exact Or.inl (read_nr_file_of_length_lt_8 data h4 h8 hm)
      · exact Or.inr (read_nr_file_of_badMagic data h4 hm)
    · exact Or.inl (read_nr_file_of_length_lt_4 data (by omega))
  · have hp : parseChunks data (data.length + 1) 16 [] = some [] := by
      rw [parseChunks, if_neg (by omega : ¬ (16 < data.length))]
    exact read_nr_file_of_ok data h8 hm hp

/-- Witness for the amended C2: a 4-byte bad-magic input fails with the
bad-magic error, and the 12-byte valid-magic `shortValidFile` parses to
an empty chunk list. -/
theorem read_nr_file_short_or_badMagic_witness :
    (read_nr_file [0, 0, 0, 1] = ParseOutcome.structError
      ∨ read_nr_file [0, 0, 0, 1] = ParseOutcome.badMagic)
    ∧ read_nr_file [0, 0, 0, 1] = ParseOutcome.badMagic
    ∧ read_nr_file shortValidFile = ParseOutcome.ok [] :=
  ⟨(read_nr_file_short_or_badMagic [0, 0, 0, 1]).1 (by decide),
   (read_nr_file_short_or_badMagic [0, 0, 0, 1]).2.1 (by decide) (by decide),
   (read_nr_file_short_or_badMagic shortValidFile).2.2 (by decide) (by decide) (by decide)⟩

/-- The data-model invariant of the spec, for claim C4: from `pos` on,
the declared chunk sizes exactly partition the remaining bytes — each
chunk holds at least its 12-byte header (`declaredSize` includes the
header) and the next chunk starts at `pos + declaredSize`, until
end-of-file is reached exactly. -/
inductive ValidFrom (data : List Nat) : Nat → Prop where
  | done : ValidFrom data data.length
  | step (pos : Nat) (hsize : 12 ≤ readU32 data pos)
      (hend : pos + readU32 data pos ≤ data.length)
      (next : ValidFrom data (pos + readU32 data pos)) : ValidFrom data pos

/-- A valid region starts within the buffer. -/
theorem ValidFrom.le_length {data : List Nat} : ∀ {pos : Nat},
    ValidFrom data pos → pos ≤ data.length := by
  intro pos hv
  cases hv with
  | done => exact Nat.le_refl _
  | step pos hsize hend next => omega

/-- On a valid region the chunk loop consumes exactly the declared
sizes: it terminates, appends one chunk per declared size, and the sizes
sum to the region's byte count. -/
theorem parseChunks_valid (data : List Nat) :
    ∀ (pos : Nat), ValidFrom data pos →
      ∀ (fuel : Nat), data.length + 1 - pos ≤ fuel →
      ∀ (acc : List Chunk), ∃ cs : List Chunk,
        parseChunks data fuel pos acc = some (acc ++ cs)
        ∧ (cs.map Chunk.raw_size).sum = data.length - pos := by
  intro pos hv
  induction hv with
  | done =>
    intro fuel hfuel acc
    refine ⟨[], ?_, by simp⟩
    cases fuel with
    | zero => exact absurd hfuel (by omega)
    | succ f =>
      rw [parseChunks, if_neg (by omega : ¬ (data.length < data.length))]
      simp
  | step pos hsize hend next ih =>
    intro fuel hfuel acc
    cases fuel with
    | zero => exact absurd hfuel (by omega)
    | succ f =>
      obtain ⟨cs, hcs, hsum⟩ := ih f (by omega)
        (acc ++ [⟨readU32 data (pos + 4), readU32 data (pos + 8), pos, readU32 data pos,
          if readU32 data pos > 12 then pySlice data (pos + 12) (pos + readU32 data pos)
          else []⟩])
      refine ⟨⟨readU32 data (pos + 4), readU32 data (pos + 8), pos, readU32 data pos,
          if readU32 data pos > 12 then pySlice data (pos + 12) (pos + readU32 data pos)
          else []⟩ :: cs, ?_, ?_⟩
      · rw [parseChunks, if_pos (by omega : pos < data.length),
            if_neg (by omega : ¬ (pos + 12 > data.length))]
        exact hcs.trans (by rw [List.append_assoc]; rfl)
      · simp only [List.map_cons, List.sum_cons]
        omega

/-- Claim C4: on a valid file (valid magic, chunks partitioning bytes
16..EOF per `ValidFrom`), `read_nr_file` succeeds and the returned
chunks' `declaredSize` fields sum to `fileLength - 16`. -/
theorem parse_sizes_sum (data : List Nat) (hm : readU32 data 0 = 0x5049524E)
    (hv : ValidFrom data 16) :
    ∃ chunks : List Chunk, read_nr_file data = ParseOutcome.ok chunks
      ∧ ((chunks.map Chunk.raw_size).sum = data.length - 16) := by
  have h16 : 16 ≤ data.length := hv.le_length
  obtain ⟨cs, hcs, hsum⟩ := parseChunks_valid data 16 hv (data.length + 1) (by omega) []
  rw [List.nil_append] at hcs
  exact ⟨cs, read_nr_file_of_ok data (by omega) hm hcs, hsum⟩

/-- A 28-byte valid file: header plus one 12-byte chunk (`VERT`, empty
payload). -/
def oneChunkFile : List Nat :=
  [0x4E, 0x52, 0x49, 0x50, 1, 0, 0, 0, 0, 0, 0, 0, 0, 0, 0, 0,
   12, 0, 0, 0, 0x56, 0x45, 0x52, 0x54, 0, 0, 0, 0]

/-- Witness for C4 at `oneChunkFile`. -/
theorem parse_sizes_sum_witness :
    ∃ chunks : List Chunk, read_nr_file oneChunkFile = ParseOutcome.ok chunks
      ∧ ((chunks.map Chunk.raw_size).sum = oneChunkFile.length - 16) :=
  parse_sizes_sum oneChunkFile (by decide)
    (ValidFrom.step 16 (by decide) (by decide)
      (by rw [show 16 + readU32 oneChunkFile 16 = oneChunkFile.length by decide]
          exact ValidFrom.done))

/-- Claim C6: on a non-empty vertex-chunk list, the selection takes
position 1 exactly when world space is preferred and at least two
chunks exist, position 0 in every other case, and always yields a chunk
(no `IndexError`) — in particular the single-chunk world-space fallback
is silent. -/
theorem selectVertexChunk_policy (cs : List Chunk) (w : Bool) (h : cs ≠ []) :
    ((w = true ∧ 2 ≤ cs.length) → selectVertexChunk cs w = cs[1]?)
    ∧ (¬ (w = true ∧ 2 ≤ cs.length) → selectVertexChunk cs w = cs[0]?)
    ∧ (selectVertexChunk cs w).isSome = true := by
  unfold selectVertexChunk
  by_cases hc : w = true ∧ 1 < cs.length
  · rw [if_pos hc]
    refine ⟨fun _ => rfl, fun hn => absurd ⟨hc.1, by have := hc.2; omega⟩ hn, ?_⟩
    rw [List.getElem?_eq_getElem hc.2]
    rfl
  · rw [if_neg hc]
    have h0 : 0 < cs.length := List.length_pos.mpr h
    refine ⟨fun hyes => absurd ⟨hyes.1, by have := hyes.2; omega⟩ hc, fun _ => rfl, ?_⟩
    rw [List.getElem?_eq_getElem h0]
    rfl

/-- A single `VERT`-tagged chunk, for the C6 fallback witness. -/
def singleVertChunkList : List Chunk := [⟨0x54524556, 0, 16, 12, []⟩]

/-- Witness for C6: with exactly one vertex chunk and world space
preferred, the selection falls back to that single chunk, without
error. -/
theorem selectVertexChunk_policy_witness :
    ((true = true ∧ 2 ≤ singleVertChunkList.length) →
        selectVertexChunk singleVertChunkList true = singleVertChunkList[1]?)
    ∧ (¬ (true = true ∧ 2 ≤ singleVertChunkList.length) →
        selectVertexChunk singleVertChunkList true = singleVertChunkList[0]?)
    ∧ (selectVertexChunk singleVertChunkList true).isSome = true :=
  selectVertexChunk_policy singleVertChunkList true (by decide)

/-- Claim C7: when the parsed chunk list has no `VERT`-tagged or no
`INDX`-tagged chunk, the conversion fails with the no-geometry
`ValueError` (line 121), which the handler of lines 155–159 reports as
an unsuccessful outcome (`return False`) rather than an uncaught
exception; no OBJ content is produced — the error precedes the
`open(obj_file_path, 'w')` of line 136. -/
theorem convert_missing_geometry (chunks : List Chunk) (w : Bool)
    (h : find_chunks chunks 0x54524556 = [] ∨ find_chunks chunks 0x58444E49 = []) :
    convert_core chunks w = ConvResult.err NrError.noGeometry
    ∧ (∀ content : ObjContent, convert_core chunks w ≠ ConvResult.ok content)
    ∧ (∀ (st : ConverterState) (data : List Nat),
        read_nr_file data = ParseOutcome.ok chunks →
        ∃ st' : ConverterState,
          convert_to_obj_st st data w = some (st', ConvResult.err NrError.noGeometry)) := by
  have hcore : convert_core chunks w = ConvResult.err NrError.noGeometry := by
    unfold convert_core
    rw [if_pos h]
  refine ⟨hcore, fun content hcon => ?_, fun st data hp => ?_⟩
  · rw [hcore] at hcon
    exact ConvResult.noConfusion hcon
  · refine ⟨⟨[] ++ chunks, readU32 data 4⟩, ?_⟩
    simp only [convert_to_obj_st, hp, List.nil_append, hcore]

/-- A parsed chunk list with no `VERT` chunk, for the C7 witness. -/
def indxOnlyChunkList : List Chunk := [⟨0x58444E49, 0, 16, 20, [3, 0, 0, 0, 4, 0, 0, 0]⟩]

/-- Witness for C7 at `indxOnlyChunkList` (no vertex chunk). -/
theorem convert_missing_geometry_witness :
    convert_core indxOnlyChunkList false = ConvResult.err NrError.noGeometry
    ∧ (∀ content : ObjContent,
        convert_core indxOnlyChunkList false ≠ ConvResult.ok content)
    ∧ (∀ (st : ConverterState) (data : List Nat),
        read_nr_file data = ParseOutcome.ok indxOnlyChunkList →
        ∃ st' : ConverterState,
          convert_to_obj_st st data false
            = some (st', ConvResult.err NrError.noGeometry)) :=
  convert_missing_geometry indxOnlyChunkList false (Or.inl (by decide))

/-- Claim C9: the observable result of a conversion — whether it
terminates, the final chunk list, and the reported outcome with its OBJ
content — is a function of the input bytes and the space selector
alone: the `self.chunks = []` reset of line 105 erases whatever an
earlier conversion left in the converter state. -/
theorem convert_state_independence (st1 st2 : ConverterState) (data : List Nat) (w : Bool) :
    (convert_to_obj_st st1 data w).map (fun p => (p.1.chunks, p.2))
      = (convert_to_obj_st st2 data w).map (fun p => (p.1.chunks, p.2)) := by
  unfold convert_to_obj_st
  cases read_nr_file data <;> rfl

/-- Witness for C8: two concrete index payloads differing only in the
topology bytes decode identically. -/
theorem parse_index_data_eq_spec_witness :
    parse_index_data ([2, 0, 0, 0] ++ ([9, 9, 9, 9] ++ [7, 0, 0, 0, 8, 0, 0, 0]))
      = parse_index_data ([2, 0, 0, 0] ++ ([4, 4, 4, 4] ++ [7, 0, 0, 0, 8, 0, 0, 0])) :=
  parse_index_data_eq_spec.2 [2, 0, 0, 0] [9, 9, 9, 9] [4, 4, 4, 4] [7, 0, 0, 0, 8, 0, 0, 0]
    (by decide) (by decide) (by decide)
